import Mathlib

/-!
Shallow embedding of the rule-based Text → ISL-gloss converter
(`convertToGloss` and its lexical tables).  Record lookups such as
`LEMMATIZATION_MAP[word] || word` are modelled with association-list
lookup followed by `Option.getD`; JavaScript `Set.has` is modelled with
list membership; `String.prototype.toLowerCase`/`toUpperCase` are
modelled by mapping `Char.toLower`/`Char.toUpper` over the characters;
`split(/\s+/)` followed by dropping empty tokens is modelled by
grouping maximal runs of non-whitespace characters.
-/

namespace ISLGloss

/-- The set of articles removed by the converter. -/
def ARTICLES : List String := ["a", "an", "the"]

/-- The set of helping verbs removed by the converter. -/
def HELPING_VERBS : List String := ["am", "is", "are", "was", "were"]

/-- Basic list of common verbs used for the SOV transformation. -/
def COMMON_VERBS : List String :=
  ["go", "going", "gone",
   "eat", "eating", "ate",
   "play", "playing", "played",
   "see", "seeing", "saw",
   "come", "coming", "came",
   "want", "wants", "wanted",
   "like", "likes", "liked",
   "do", "doing", "did"]

/-- Question words that move to the end in ISL. -/
def WH_QUESTIONS : List String := ["what", "where", "when", "why", "who"]

/-- Map from inflected verb forms to their roots. -/
def LEMMATIZATION_MAP : List (String × String) :=
  [("going", "go"), ("gone", "go"),
   ("eating", "eat"), ("ate", "eat"),
   ("playing", "play"), ("played", "play"),
   ("seeing", "see"), ("saw", "see"),
   ("coming", "come"), ("came", "come"),
   ("wanting", "want"), ("wanted", "want"),
   ("likes", "like"), ("liked", "like"),
   ("doing", "do"), ("did", "do"),
   ("helping", "help"), ("helped", "help"),
   ("working", "work"), ("worked", "work")]

/-- Map from digit strings to their word equivalents. -/
def NUMBER_MAP : List (String × String) :=
  [("0", "zero"), ("1", "one"), ("2", "two"), ("3", "three"),
   ("4", "four"), ("5", "five"), ("6", "six"), ("7", "seven"),
   ("8", "eight"), ("9", "nine"), ("10", "ten")]

/-- The punctuation characters stripped by the regular expression
in stage 1 (the brace and backtick characters are written with
`Char.ofNat` codes 123, 125 and 96). -/
def PUNCT_CHARS : List Char :=
  ['.', ',', '/', '#', '!', '$', '%', '^', '&', '*', ';', ':',
   Char.ofNat 123, Char.ofNat 125, '=', '-', '_', Char.ofNat 96,
   '~', '(', ')']

/-- Whitespace characters recognised by the tokenizer (space, tab,
newline, carriage return, vertical tab, form feed). -/
def SPACE_CHARS : List Char :=
  [' ', '\t', '\n', '\r', Char.ofNat 11, Char.ofNat 12]

/-- Whether a character is whitespace for the `\s+` split. -/
def isSpaceCh (c : Char) : Bool := SPACE_CHARS.contains c

/-- Group maximal runs of non-whitespace characters into words;
`acc` holds the characters of the current word in reverse order.
This models splitting on runs of whitespace and then dropping
empty tokens. -/
def splitWordsAux : List Char → List Char → List String
  | [], acc => if acc.isEmpty then [] else [String.mk acc.reverse]
  | c :: cs, acc =>
    if isSpaceCh c then
      if acc.isEmpty then splitWordsAux cs []
      else String.mk acc.reverse :: splitWordsAux cs []
    else splitWordsAux cs (c :: acc)

/-- Stage 1: lowercase, strip the fixed punctuation characters, split
on whitespace and drop empty tokens. -/
def tokenize (text : String) : List String :=
  splitWordsAux ((text.data.map Char.toLower).filter
    (fun c => !(PUNCT_CHARS.contains c))) []

/-- `NUMBER_MAP[word] || word`. -/
def expandToken (w : String) : String := (NUMBER_MAP.lookup w).getD w

/-- Stage 1.5: convert numbers 0–10 to words. -/
def expandNumbers (ws : List String) : List String := ws.map expandToken

/-- Stage 2: remove articles and helping verbs. -/
def removeStopwords (ws : List String) : List String :=
  ws.filter (fun w => !ARTICLES.contains w && !HELPING_VERBS.contains w)

/-- `LEMMATIZATION_MAP[word] || word`. -/
def lemmaOf (w : String) : String := (LEMMATIZATION_MAP.lookup w).getD w

/-- Stage 3: lemmatize each token. -/
def lemmatize (ws : List String) : List String := ws.map lemmaOf

/-- Stage 4: if more than one token remains and the first is a
wh-question word, move it from the front to the end. -/
def moveWh (ws : List String) : List String :=
  match ws with
  | [] => []
  | q :: rest =>
    if !rest.isEmpty && WH_QUESTIONS.contains q then rest ++ [q]
    else q :: rest

/-- A token looks like a verb when it is in `COMMON_VERBS` or is a key
of `LEMMATIZATION_MAP` (the lookup is truthy). -/
def isVerbLike (w : String) : Bool :=
  COMMON_VERBS.contains w || (LEMMATIZATION_MAP.lookup w).isSome

/-- Stage 5 (SOV heuristic): find the first verb-like token; if it
exists and is not the last token, splice it out and push it to the
end.  `List.findIdx` returns the length when nothing matches, so
`i < ws.length - 1` is exactly the source's
`verbIndex !== -1 && verbIndex < words.length - 1`. -/
def moveVerb (ws : List String) : List String :=
  let i := ws.findIdx isVerbLike
  if i < ws.length - 1 then ws.eraseIdx i ++ [ws.getD i ""] else ws

/-- Stage 6: join with single spaces and uppercase. -/
def joinUpper (ws : List String) : String :=
  String.mk ((String.intercalate " " ws).data.map Char.toUpper)

/-- The token sequence after stages 1–2 (tokenize, number expansion,
stopword removal) — the value of `words` at the emptiness check. -/
def filteredWords (text : String) : List String :=
  removeStopwords (expandNumbers (tokenize text))

/-- The token sequence just before the final join-and-uppercase stage
(the value of `words` at the return statement); the `[]` branch is the
source's early `return ''` when stopword removal empties the list. -/
def glossWords (text : String) : List String :=
  if (filteredWords text).isEmpty then []
  else moveVerb (moveWh (lemmatize (filteredWords text)))

/-- The full converter on a string input.  The `text = ""` branch is
the JavaScript `!text` guard; the empty-token short circuit is folded
into `glossWords`. -/
def convertToGloss (text : String) : String :=
  if text = "" then "" else joinUpper (glossWords text)

/-- The converter on a possibly-non-string input: the
`typeof text !== 'string'` guard maps a non-string (`none`) to `""`. -/
def convertToGlossAny : Option String → String
  | none => ""
  | some t => convertToGloss t

/-- The token sequence right before the wh-word stage (after
expansion, stopword removal and lemmatization). -/
def preWhWords (text : String) : List String :=
  lemmatize (filteredWords text)

/-- Whether the wh-word relocation fires on a token sequence: more
than one token and the first is a wh-question word. -/
def whFires (ws : List String) : Bool :=
  match ws with
  | [] => false
  | q :: rest => !rest.isEmpty && WH_QUESTIONS.contains q

/-- Variant pipeline that performs the wh-word check before
lemmatization (the order the design note attributes to the original
source), for the refinement comparison. -/
def glossWordsAlt (text : String) : List String :=
  if (filteredWords text).isEmpty then []
  else moveVerb (lemmatize (moveWh (filteredWords text)))

/-- Full converter built on the variant pipeline. -/
def convertToGlossAlt (text : String) : String :=
  if text = "" then "" else joinUpper (glossWordsAlt text)

/-- A successful association-list lookup returns a pair of the list. -/
theorem lookup_mem {m : List (String × String)} {k v : String}
    (h : m.lookup k = some v) : (k, v) ∈ m := by
  induction m with
  | nil => simp [List.lookup] at h
  | cons p rest ih =>
    obtain ⟨a, b⟩ := p
    rw [List.lookup_cons] at h
    split at h
    · next hk =>
      cases h
      cases eq_of_beq hk
      exact List.mem_cons_self _ _
    · exact List.mem_cons_of_mem _ (ih h)

/-- Lookup misses when the key is under none of the pairs. -/
theorem lookup_eq_none {m : List (String × String)} {k : String}
    (h : ∀ p ∈ m, p.1 ≠ k) : m.lookup k = none := by
  induction m with
  | nil => rfl
  | cons p rest ih =>
    obtain ⟨a, b⟩ := p
    rw [List.lookup_cons]
    have ha : (k == a) = false := by
      have := h (a, b) (List.mem_cons_self _ _)
      simp only [ne_eq] at this
      exact beq_eq_false_iff_ne.2 fun hk => this hk.symm
    rw [ha]
    exact ih fun p hp => h p (List.mem_cons_of_mem _ hp)

/-- `lemmaOf` either fixes its argument (lookup miss) or returns the
mapped value of a pair of the lemmatization table. -/
theorem lemmaOf_cases (w : String) :
    (lemmaOf w = w ∧ LEMMATIZATION_MAP.lookup w = none) ∨
      (w, lemmaOf w) ∈ LEMMATIZATION_MAP := by
  unfold lemmaOf
  cases h : LEMMATIZATION_MAP.lookup w with
  | none => exact Or.inl ⟨rfl, rfl⟩
  | some v => exact Or.inr (lookup_mem h)

/-- No value of the lemmatization table is itself a key. -/
theorem lemma_value_not_key :
    ∀ p ∈ LEMMATIZATION_MAP, LEMMATIZATION_MAP.lookup p.2 = none := by decide

/-- No value of the lemmatization table is an article or helping verb. -/
theorem lemma_value_not_stopword :
    ∀ p ∈ LEMMATIZATION_MAP,
      ARTICLES.contains p.2 = false ∧ HELPING_VERBS.contains p.2 = false := by
  decide

/-- No key and no value of the lemmatization table is a wh-word. -/
theorem lemma_not_wh :
    ∀ p ∈ LEMMATIZATION_MAP,
      p.1 ∉ WH_QUESTIONS ∧ p.2 ∉ WH_QUESTIONS := by
  decide

/-- Lemmatization does not change whether a token is a wh-word. -/
theorem wh_mem_lemmaOf (w : String) :
    lemmaOf w ∈ WH_QUESTIONS ↔ w ∈ WH_QUESTIONS := by
  rcases lemmaOf_cases w with ⟨heq, _⟩ | hmem
  · rw [heq]
  · have h := lemma_not_wh (w, lemmaOf w) hmem
    exact ⟨fun hw => absurd hw h.2, fun hw => absurd hw h.1⟩

/-- `moveWh` permutes its input. -/
theorem moveWh_perm (ws : List String) : List.Perm (moveWh ws) ws := by
  cases ws with
  | nil => exact List.Perm.refl _
  | cons q rest =>
    simp only [moveWh]
    split
    · exact List.perm_append_singleton q rest
    · exact List.Perm.refl _

/-- Cons-level characterization of the splice-based `moveVerb`. -/
theorem moveVerb_cons (w : String) (rest : List String) :
    moveVerb (w :: rest) =
      if isVerbLike w then (if rest.isEmpty then [w] else rest ++ [w])
      else w :: moveVerb rest := by
  by_cases hw : isVerbLike w
  · simp only [moveVerb, List.findIdx_cons, hw, cond_true, List.length_cons,
      Nat.add_sub_cancel, List.eraseIdx_cons_zero, List.getD_cons_zero, if_true]
    cases rest with
    | nil => simp
    | cons b bs => simp
  · simp only [moveVerb, List.findIdx_cons, hw, cond_false, List.length_cons,
      Nat.add_sub_cancel, if_false]
    by_cases hc : rest.findIdx isVerbLike < rest.length - 1
    · have h1 : rest.findIdx isVerbLike + 1 < rest.length := by omega
      rw [if_pos h1, if_pos hc]
      simp
    · have h1 : ¬ rest.findIdx isVerbLike + 1 < rest.length := by omega
      rw [if_neg h1, if_neg hc]
      simp [hw]

/-- `moveVerb` permutes its input. -/
theorem moveVerb_perm (ws : List String) : List.Perm (moveVerb ws) ws := by
  induction ws with
  | nil => exact List.Perm.refl _
  | cons w rest ih =>
    rw [moveVerb_cons]
    by_cases hw : isVerbLike w
    · rw [if_pos hw]
      cases rest with
      | nil => simp
      | cons b bs =>
        simp only [List.isEmpty_cons, if_false, Bool.false_eq_true]
        exact List.perm_append_singleton w (b :: bs)
    · rw [if_neg hw]
      exact ih.cons w

/-- When no token looks like a verb, `moveVerb` is the identity. -/
theorem moveVerb_of_no_verb (ws : List String)
    (h : ∀ w ∈ ws, isVerbLike w = false) : moveVerb ws = ws := by
  induction ws with
  | nil => rfl
  | cons w rest ih =>
    rw [moveVerb_cons, if_neg, ih fun w hw => h w (List.mem_cons_of_mem _ hw)]
    rw [h w (List.mem_cons_self _ _)]
    simp

/-- Lemmatization commutes with the wh-word relocation: the first
token's wh-status is unchanged by `lemmaOf`, and mapping distributes
over the shift-and-append. -/
theorem lemmatize_moveWh (ws : List String) :
    lemmatize (moveWh ws) = moveWh (lemmatize ws) := by
  cases ws with
  | nil => rfl
  | cons q rest =>
    cases rest with
    | nil => simp [moveWh, lemmatize]
    | cons b bs =>
      by_cases hq : q ∈ WH_QUESTIONS
      · simp [moveWh, lemmatize, hq, wh_mem_lemmaOf]
      · simp [moveWh, lemmatize, hq, wh_mem_lemmaOf]

/-- Splitting a run of pure whitespace yields no tokens. -/
theorem splitWordsAux_nil (cs : List Char)
    (h : ∀ c ∈ cs, isSpaceCh c = true) : splitWordsAux cs [] = [] := by
  induction cs with
  | nil => rfl
  | cons c cs ih =>
    simp only [splitWordsAux]
    rw [if_pos (h c (List.mem_cons_self _ _))]
    simp only [List.isEmpty_nil, if_pos]
    exact ih fun d hd => h d (List.mem_cons_of_mem _ hd)

/-- Lowercasing fixes every punctuation or whitespace character. -/
theorem toLower_fix (c : Char)
    (h : (PUNCT_CHARS.contains c || isSpaceCh c) = true) :
    Char.toLower c = c := by
  rw [Bool.or_eq_true] at h
  rcases h with hp | hs
  · have hc : c ∈ PUNCT_CHARS := List.elem_iff.1 hp
    fin_cases hc <;> decide
  · have hc : c ∈ SPACE_CHARS := List.elem_iff.1 hs
    fin_cases hc <;> decide

/-- An article or helping verb is not a digit key (so number expansion
fixes it) and fails the stopword-filter predicate (so it is removed). -/
theorem stopword_token_facts (w : String)
    (h : (ARTICLES.contains w || HELPING_VERBS.contains w) = true) :
    expandToken w = w ∧
      (!ARTICLES.contains w && !HELPING_VERBS.contains w) = false := by
  rw [Bool.or_eq_true] at h
  rcases h with ha | hh
  · have hw : w ∈ ARTICLES := List.elem_iff.1 ha
    fin_cases hw <;> exact ⟨by decide, by decide⟩
  · have hw : w ∈ HELPING_VERBS := List.elem_iff.1 hh
    fin_cases hw <;> exact ⟨by decide, by decide⟩

/-- The converter is the uppercase join of the pre-casing tokens. -/
theorem convertToGloss_eq_joinUpper (s : String) :
    convertToGloss s = joinUpper (glossWords s) := by
  unfold convertToGloss
  split
  · next h => subst h; rfl
  · rfl

/-- Every pre-casing gloss token is the lemmatization of a token that
survived stopword removal. -/
theorem mem_glossWords (s w : String) (hw : w ∈ glossWords s) :
    ∃ v ∈ filteredWords s, w = lemmaOf v := by
  unfold glossWords at hw
  split at hw
  · cases hw
  · have h1 : w ∈ lemmatize (filteredWords s) :=
      ((moveWh_perm _).mem_iff).1 (((moveVerb_perm _).mem_iff).1 hw)
    rcases List.mem_map.1 h1 with ⟨v, hv, rfl⟩
    exact ⟨v, hv, rfl⟩

/-- C4: every token of the output gloss (the pre-casing token list,
whose uppercased join is the returned string) is either a token of the
input after digit expansion or a value of the lemmatization map: the
pipeline only deletes, reorders or substitutes tokens. -/
theorem c4_no_new_words (s w : String) (hw : w ∈ glossWords s) :
    w ∈ expandNumbers (tokenize s) ∨ w ∈ LEMMATIZATION_MAP.map Prod.snd := by
  rcases mem_glossWords s w hw with ⟨v, hv, rfl⟩
  have hv' : v ∈ expandNumbers (tokenize s) := by
    unfold filteredWords removeStopwords at hv
    exact List.mem_of_mem_filter hv
  rcases lemmaOf_cases v with ⟨heq, _⟩ | hmem
  · rw [heq]; exact Or.inl hv'
  · exact Or.inr (List.mem_map.2 ⟨(v, lemmaOf v), hmem, rfl⟩)

theorem c4_witness :
    "eat" ∈ expandNumbers (tokenize "I ate 5 apples") ∨
      "eat" ∈ LEMMATIZATION_MAP.map Prod.snd :=
  c4_no_new_words "I ate 5 apples" "eat" (by decide)

/-- C5: no token of the output gloss (the pre-casing token list, whose
uppercased join is the returned string) is an article or a helping
verb, for any input. -/
theorem c5_no_stopword_tokens (s w : String) (hw : w ∈ glossWords s) :
    ARTICLES.contains w = false ∧ HELPING_VERBS.contains w = false := by
  rcases mem_glossWords s w hw with ⟨v, hv, rfl⟩
  rcases lemmaOf_cases v with ⟨heq, _⟩ | hmem
  · rw [heq]
    unfold filteredWords removeStopwords at hv
    have hf := (List.mem_filter.1 hv).2
    rw [Bool.and_eq_true] at hf
    exact ⟨by simpa using hf.1, by simpa using hf.2⟩
  · exact lemma_value_not_stopword (v, lemmaOf v) hmem

theorem c5_witness :
    ARTICLES.contains "cat" = false ∧ HELPING_VERBS.contains "cat" = false :=
  c5_no_stopword_tokens "The cat is here" "cat" (by decide)

/-- C6: the number of output gloss tokens never exceeds the number of
tokens produced by the tokenization stage — expansion and
lemmatization are 1:1 maps, stopword removal only deletes, and the two
move stages only reorder. -/
theorem c6_token_count (s : String) :
    (glossWords s).length ≤ (tokenize s).length ∧
      convertToGloss s = joinUpper (glossWords s) := by
  refine ⟨?_, convertToGloss_eq_joinUpper s⟩
  unfold glossWords
  split
  · simp
  · rw [(moveVerb_perm _).length_eq, (moveWh_perm _).length_eq]
    unfold lemmatize
    rw [List.length_map]
    unfold filteredWords removeStopwords
    refine le_trans (List.length_filter_le _ _) (le_of_eq ?_)
    unfold expandNumbers
    rw [List.length_map]

/-- C7: digit expansion replaces exactly the eleven digit strings
"0"–"10" with their English words and leaves every other token,
including larger or malformed numerals, unchanged. -/
theorem c7_digit_expansion :
    List.map expandToken (NUMBER_MAP.map Prod.fst) = NUMBER_MAP.map Prod.snd ∧
      (∀ t ∈ NUMBER_MAP.map Prod.fst, expandToken t ≠ t) ∧
      (∀ t : String, t ∉ NUMBER_MAP.map Prod.fst → expandToken t = t) := by
  refine ⟨by decide, by decide, ?_⟩
  intro t ht
  unfold expandToken
  rw [lookup_eq_none]
  · rfl
  · intro p hp hpt
    exact ht (hpt ▸ List.mem_map_of_mem Prod.fst hp)

theorem c7_witness :
    ("11" ∉ NUMBER_MAP.map Prod.fst ∧ expandToken "11" = "11") ∧
      ("1a" ∉ NUMBER_MAP.map Prod.fst ∧ expandToken "1a" = "1a") ∧
      ("5" ∈ NUMBER_MAP.map Prod.fst ∧ expandToken "5" ≠ "5") :=
  ⟨⟨by decide, c7_digit_expansion.2.2 "11" (by decide)⟩,
   ⟨by decide, c7_digit_expansion.2.2 "1a" (by decide)⟩,
   ⟨by decide, c7_digit_expansion.2.1 "5" (by decide)⟩⟩

/-- C8: the worked example — "5" expands to "five", "ate" lemmatizes
to "eat", and the verb scan relocates "eat" to the end. -/
theorem c8_worked_example :
    convertToGloss "I ate 5 apples" = "I FIVE APPLES EAT" := by decide

/-- C9: the converter is deterministic and stateless — it is a pure
function of its input over the fixed lexical tables, so equal inputs
always produce equal outputs and no call can affect another. -/
theorem c9_deterministic (s₁ s₂ : String) (h : s₁ = s₂) :
    convertToGloss s₁ = convertToGloss s₂ := by rw [h]

theorem c9_witness :
    convertToGloss "I like computer" = convertToGloss "I like computer" :=
  c9_deterministic "I like computer" "I like computer" rfl

/-- When stopword removal empties the token list the converter
returns the empty string. -/
theorem convert_empty_of_filtered_nil (s : String)
    (h : filteredWords s = []) : convertToGloss s = "" := by
  unfold convertToGloss
  split
  · rfl
  · unfold glossWords
    rw [h]
    decide

/-- C3: the converter is a total function into strings (it is defined
for every input, including the non-string `none`), and every
degenerate input — a non-string, the empty string, an input whose
tokens are all articles or helping verbs, and an input made only of
strippable punctuation and whitespace — maps to the empty string. -/
theorem c3_degenerate_inputs :
    convertToGlossAny none = "" ∧
      convertToGloss "" = "" ∧
      (∀ s : String,
        (∀ w ∈ tokenize s,
          (ARTICLES.contains w || HELPING_VERBS.contains w) = true) →
        convertToGloss s = "") ∧
      (∀ s : String,
        (∀ c ∈ s.data, (PUNCT_CHARS.contains c || isSpaceCh c) = true) →
        convertToGloss s = "") := by
  refine ⟨rfl, rfl, ?_, ?_⟩
  · intro s hs
    apply convert_empty_of_filtered_nil
    unfold filteredWords removeStopwords expandNumbers
    rw [List.filter_eq_nil_iff]
    intro a ha
    rcases List.mem_map.1 ha with ⟨w, hw, rfl⟩
    have hfacts := stopword_token_facts w (hs w hw)
    show ¬ ((!ARTICLES.contains (expandToken w) &&
      !HELPING_VERBS.contains (expandToken w)) = true)
    rw [hfacts.1, hfacts.2]
    simp
  · intro s hs
    have htok : tokenize s = [] := by
      unfold tokenize
      apply splitWordsAux_nil
      intro c hc
      rw [List.mem_filter] at hc
      rcases hc with ⟨hcmem, hcp⟩
      rcases List.mem_map.1 hcmem with ⟨c0, hc0, rfl⟩
      have h0 := hs c0 hc0
      have hfix : Char.toLower c0 = c0 := toLower_fix c0 h0
      rw [hfix] at hcp ⊢
      rw [Bool.not_eq_true'] at hcp
      rw [Bool.or_eq_true] at h0
      rcases h0 with h | h
      · rw [hcp] at h
        exact absurd h (by simp)
      · exact h
    apply convert_empty_of_filtered_nil
    unfold filteredWords
    rw [htok]
    rfl

theorem c3_witness :
    convertToGloss "a the is" = "" ∧ convertToGloss ".,;  " = "" :=
  ⟨c3_degenerate_inputs.2.2.1 "a the is" (by decide),
   c3_degenerate_inputs.2.2.2 ".,;  " (by decide)⟩

/-- C1 counterexample: on "I helping you" the post-stopword tokens are
["i", "helping", "you"], where "helping" is a key of the lemmatization
map, is not in `COMMON_VERBS`, is not last, and no earlier token is
verb-like — yet the final gloss is "I HELP YOU": the lemmatized verb
stays in place and nothing is relocated to the end. -/
theorem c1_counterexample :
    filteredWords "I helping you" = ["i", "helping", "you"] ∧
      (LEMMATIZATION_MAP.lookup "helping").isSome = true ∧
      COMMON_VERBS.contains "helping" = false ∧
      isVerbLike "i" = false ∧
      glossWords "I helping you" = ["i", "help", "you"] ∧
      (glossWords "I helping you").getLast? = some "you" ∧
      convertToGloss "I helping you" = "I HELP YOU" := by decide

/-- C1 amended: lemmatization runs before the verb scan, so the
scan's lemma-key branch never fires — after lemmatization no token is
a key of the map, and a token counts as verb-like exactly when its
post-lemmatization form is in `COMMON_VERBS`.  A lemma-map key whose
root is outside `COMMON_VERBS` (helping, helped, working, worked) is
therefore never relocated. -/
theorem c1_amended (ws : List String) (w : String) (hw : w ∈ lemmatize ws) :
    LEMMATIZATION_MAP.lookup w = none ∧
      isVerbLike w = COMMON_VERBS.contains w := by
  rcases List.mem_map.1 hw with ⟨v, hv, rfl⟩
  have hnone : LEMMATIZATION_MAP.lookup (lemmaOf v) = none := by
    rcases lemmaOf_cases v with ⟨heq, hn⟩ | hmem
    · rw [heq]; exact hn
    · exact lemma_value_not_key (v, lemmaOf v) hmem
  refine ⟨hnone, ?_⟩
  unfold isVerbLike
  rw [hnone]
  simp

theorem c1_witness :
    LEMMATIZATION_MAP.lookup "help" = none ∧
      isVerbLike "help" = COMMON_VERBS.contains "help" :=
  c1_amended ["i", "helping", "you"] "help" (by decide)

/-- C2 counterexample: on "What do you want" the wh-word relocation
fires (four tokens, first is "what"), but the verb-scan stage then
moves "do" behind it, so the final gloss "YOU WANT WHAT DO" does not
end with the wh-word. -/
theorem c2_counterexample :
    whFires (preWhWords "What do you want") = true ∧
      glossWords "What do you want" = ["you", "want", "what", "do"] ∧
      (glossWords "What do you want").getLast? = some "do" ∧
      WH_QUESTIONS.contains "do" = false ∧
      convertToGloss "What do you want" = "YOU WANT WHAT DO" := by decide

/-- C2 amended: when the wh-word relocation fires and the subsequent
verb-final stage does not (no remaining token is verb-like), the
wh-word is the last token of the final gloss. -/
theorem c2_amended (s q : String) (rest : List String)
    (hpre : preWhWords s = q :: rest)
    (hfire : whFires (preWhWords s) = true)
    (hnoverb : ∀ w ∈ preWhWords s, isVerbLike w = false) :
    (glossWords s).getLast? = some q ∧ q ∈ WH_QUESTIONS := by
  rw [hpre] at hfire hnoverb
  simp only [whFires] at hfire
  rw [Bool.and_eq_true] at hfire
  have hq : q ∈ WH_QUESTIONS := List.elem_iff.1 hfire.2
  refine ⟨?_, hq⟩
  have hlem : lemmatize (filteredWords s) = q :: rest := hpre
  have hfil : ¬ (filteredWords s).isEmpty = true := by
    intro hemp
    rw [List.isEmpty_eq_true] at hemp
    rw [hemp] at hlem
    simp [lemmatize] at hlem
  unfold glossWords
  rw [if_neg hfil, hlem]
  have hmw : moveWh (q :: rest) = rest ++ [q] := by
    simp only [moveWh]
    rw [if_pos]
    rw [Bool.and_eq_true]
    exact ⟨hfire.1, hfire.2⟩
  rw [hmw, moveVerb_of_no_verb]
  · exact List.getLast?_concat rest
  · intro w hwmem
    apply hnoverb
    rcases List.mem_append.1 hwmem with h | h
    · exact List.mem_cons_of_mem _ h
    · rw [List.mem_singleton.1 h]
      exact List.mem_cons_self _ _

theorem c2_witness :
    (glossWords "What is your name").getLast? = some "what" ∧
      "what" ∈ WH_QUESTIONS :=
  c2_amended "What is your name" "what" ["your", "name"]
    (by decide) (by decide) (by decide)

/-- C10: checking the wh-word before lemmatization and checking it
after lemmatization produce identical output on every input, because
lemmatization never moves a token into or out of the wh-word set. -/
theorem c10_wh_order_equivalence (s : String) :
    convertToGlossAlt s = convertToGloss s ∧
      glossWordsAlt s = glossWords s := by
  have hg : glossWordsAlt s = glossWords s := by
    unfold glossWordsAlt glossWords
    rw [lemmatize_moveWh]
  refine ⟨?_, hg⟩
  unfold convertToGlossAlt convertToGloss
  rw [hg]

end ISLGloss
